import Mathlib

/-!
Verification of the sslkeylog interposition library (src/src/sslkeylog.c).

The development is a shallow embedding of the C source:

* `SslMasterKey` / `SslClientRandom` mirror the two fixed-capacity
  snapshot structs (48-byte and 32-byte buffers plus a length field).
* `memcmp` mirrors the C library comparison used at sslkeylog.c:212;
  `changed` is exactly the condition of that `if`.
* `mkSnapshot` / `crSnapshot` model `SSL_SESSION_get_master_key` /
  `SSL_get_client_random` filling a zero-initialised buffer and
  returning the number of bytes copied (at most the capacity).
* `KeyLogFile_raw_dump`, `KeyLogFile_callback`, `logging_key` and the
  three interceptors `SSL_connect`, `SSL_do_handshake`, `SSL_accept`
  return the list of `write(2)` calls they attempt, paired with the
  value returned to the application; the OS-level effect of a write on
  an invalid descriptor is applied separately by `osWrite`.
* `KeyLogFile_init`, `KeyLogFile_finalize`, `stepEvent`, `runEvents`
  and `processRun` give a whole-process trace model (one-time
  initialisation from `SSL_new`, the `atexit` registration, and the
  handlers run at normal process termination).

The globals `_SSL_CTX_set_keylog_callback` (resolved or `NULL`) and
`KeyLogFile_fd` (valid or `-1`) are passed to the embedded functions as
the booleans `hasCb` and `fdValid`.
-/

/-- SSL3_RANDOM_SIZE from the OpenSSL headers: client random capacity. -/
def SSL3_RANDOM_SIZE : Nat := 32

/-- SSL_MAX_MASTER_KEY_LENGTH from the OpenSSL headers: master-key capacity. -/
def SSL_MAX_MASTER_KEY_LENGTH : Nat := 48

/-- Length of the literal "CLIENT_RANDOM " (sslkeylog.c:30). -/
def CLIENT_RANDOM_LEN : Nat := 14

/-- Line-buffer size from sslkeylog.c:31:
`CLIENT_RANDOM_LEN + 32*2 + 1 + 48*2 + 2`. -/
def CLIENT_RANDOM_LINE_LENGTH : Nat :=
  CLIENT_RANDOM_LEN + (SSL3_RANDOM_SIZE * 2) + 1 + (SSL_MAX_MASTER_KEY_LENGTH * 2) + 2

/-- Master-key snapshot struct (sslkeylog.c:38-42): a 48-byte buffer and a
length.  Bytes are modelled as `Nat` (well-formed buffers hold values < 256). -/
structure SslMasterKey where
  value : List Nat
  length : Nat
deriving DecidableEq, Repr

/-- Client-random snapshot struct (sslkeylog.c:45-49): a 32-byte buffer and a
length. -/
structure SslClientRandom where
  value : List Nat
  length : Nat
deriving DecidableEq, Repr

/-- Well-formedness of a master-key snapshot as produced by the C code: the
buffer is exactly the 48-byte array, the length never exceeds the capacity,
and every cell holds an unsigned char. -/
def SslMasterKey.WF (k : SslMasterKey) : Prop :=
  k.value.length = SSL_MAX_MASTER_KEY_LENGTH ∧
  k.length ≤ SSL_MAX_MASTER_KEY_LENGTH ∧
  ∀ b ∈ k.value, b < 256

instance (k : SslMasterKey) : Decidable k.WF := by
  unfold SslMasterKey.WF; infer_instance

/-- Well-formedness of a client-random snapshot: 32-byte buffer, length within
capacity, unsigned-char cells. -/
def SslClientRandom.WF (r : SslClientRandom) : Prop :=
  r.value.length = SSL3_RANDOM_SIZE ∧
  r.length ≤ SSL3_RANDOM_SIZE ∧
  ∀ b ∈ r.value, b < 256

instance (r : SslClientRandom) : Decidable r.WF := by
  unfold SslClientRandom.WF; infer_instance

/-- C `memcmp(a, b, n)` over byte buffers: compare the first `n` bytes,
returning 0 on equality and the sign of the first difference otherwise.
Reading past the end of a list yields 0 (the callers only compare within
the 48-byte buffers, where this never happens). -/
def memcmp : List Nat → List Nat → Nat → Int
  | _, _, 0 => 0
  | a, b, n + 1 =>
    let x := a.headD 0
    let y := b.headD 0
    if x = y then memcmp a.tail b.tail n
    else if x < y then -1 else 1

/-- Deduplication condition of sslkeylog.c:212:
`(after_key.length > 0) && memcmp(after_key.value, before_key->value, after_key.length) != 0`. -/
def changed (before_key after_key : SslMasterKey) : Bool :=
  decide (0 < after_key.length) &&
  decide (memcmp after_key.value before_key.value after_key.length ≠ 0)

/-- Modelled from the spec (section 4.3): `changed` is true iff
`after.length > 0` and the byte content of `after` differs from `before`
over `after.length` bytes.  Stated over the list prefixes for comparison
with the `memcmp`-based code path. -/
def changedSpec (before_key after_key : SslMasterKey) : Prop :=
  0 < after_key.length ∧
  after_key.value.take after_key.length ≠ before_key.value.take after_key.length

/-- `SSL_SESSION_get_master_key(sess, buf, 48)` on a zero-initialised
`SslMasterKey`: the first `min (48, |key|)` bytes of the session's key are
copied into the zeroed 48-byte buffer and that count is returned
(sslkeylog.c:130-131, 150-151, 165-166, 210-211). -/
def mkSnapshot (key : List Nat) : SslMasterKey :=
  { value := key.take SSL_MAX_MASTER_KEY_LENGTH ++
      List.replicate (SSL_MAX_MASTER_KEY_LENGTH - key.length) 0,
    length := min key.length SSL_MAX_MASTER_KEY_LENGTH }

/-- `SSL_get_client_random(ssl, buf, 32)` on a zero-initialised
`SslClientRandom` (sslkeylog.c:214-215). -/
def crSnapshot (rand : List Nat) : SslClientRandom :=
  { value := rand.take SSL3_RANDOM_SIZE ++
      List.replicate (SSL3_RANDOM_SIZE - rand.length) 0,
    length := min rand.length SSL3_RANDOM_SIZE }

/-- One lowercase hex digit, as produced by `sprintf("%02x", ·)` for a
nibble value below 16. -/
def hexDigitChar (n : Nat) : Char :=
  if n < 10 then Char.ofNat (48 + n) else Char.ofNat (97 + (n - 10))

/-- The two characters `sprintf("%02x", b)` writes for an unsigned char `b`. -/
def hexByteChars (b : Nat) : List Char :=
  [hexDigitChar (b / 16), hexDigitChar (b % 16)]

/-- The characters produced by the `sprintf("%02x", value[i])` loops of
`KeyLogFile_raw_dump` (sslkeylog.c:345-349, 354-358) over a byte list. -/
def hexStrChars : List Nat → List Char
  | [] => []
  | b :: bs => hexByteChars b ++ hexStrChars bs

/-- The full line `KeyLogFile_raw_dump` assembles in its stack buffer before
the single `write` call (sslkeylog.c:339-362): the literal, the client-random
hex field, a space, the master-key hex field, and a newline. -/
def dumpLine (client_random : SslClientRandom) (master_key : SslMasterKey) : String :=
  "CLIENT_RANDOM " ++
  String.mk (hexStrChars (client_random.value.take client_random.length)) ++
  " " ++
  String.mk (hexStrChars (master_key.value.take master_key.length)) ++
  "\n"

/-- `KeyLogFile_raw_dump` (sslkeylog.c:334-366) as the list of `write(2)`
calls it attempts.  The function checks both lengths but never checks
`KeyLogFile_fd`; accordingly the result does not depend on `fdValid`. -/
def KeyLogFile_raw_dump (fdValid : Bool) (client_random : SslClientRandom)
    (master_key : SslMasterKey) : List String :=
  if client_random.length ≠ 0 ∧ master_key.length ≠ 0 then
    [dumpLine client_random master_key]
  else []

/-- `KeyLogFile_callback` (sslkeylog.c:317-326) as the list of `write(2)`
calls it attempts: guarded by `KeyLogFile_fd >= 0`, it writes the line and
then the newline in two separate calls. -/
def KeyLogFile_callback (fdValid : Bool) (line : String) : List String :=
  if fdValid then [line, "\n"] else []

/-- Per-handshake environment: what the real OpenSSL functions would return
around one intercepted call.  `keyBefore`/`keyAfter` are the session's
master-key bytes readable before/after the real call, `clientRandom` the
client-random bytes readable after it, and `ret` the real call's result. -/
structure HandshakeOracle where
  keyBefore : List Nat
  ret : Int
  keyAfter : List Nat
  clientRandom : List Nat
deriving DecidableEq, Repr

/-- `logging_key` (sslkeylog.c:207-224): take the after snapshot, and when the
master key changed, read the client random and raw-dump the pair. -/
def logging_key (fdValid : Bool) (o : HandshakeOracle)
    (before_key : SslMasterKey) : List String :=
  let after_key := mkSnapshot o.keyAfter
  if changed before_key after_key then
    let crandom := crSnapshot o.clientRandom
    KeyLogFile_raw_dump fdValid crandom after_key
  else []

/-- `SSL_connect` hook (sslkeylog.c:122-140): with the callback resolved,
delegate directly; otherwise snapshot before, delegate, and log on success.
Returns the real call's value and the attempted writes. -/
def SSL_connect (hasCb fdValid : Bool) (o : HandshakeOracle) : Int × List String :=
  if hasCb then (o.ret, [])
  else
    let before_key := mkSnapshot o.keyBefore
    let ret := o.ret
    if ret = 1 then (ret, logging_key fdValid o before_key)
    else (ret, [])

/-- `SSL_do_handshake` hook (sslkeylog.c:142-160): same shape as
`SSL_connect`. -/
def SSL_do_handshake (hasCb fdValid : Bool) (o : HandshakeOracle) : Int × List String :=
  if hasCb then (o.ret, [])
  else
    let before_key := mkSnapshot o.keyBefore
    let ret := o.ret
    if ret = 1 then (ret, logging_key fdValid o before_key)
    else (ret, [])

/-- `SSL_accept` hook (sslkeylog.c:162-174): snapshots and logs on success
without consulting `_SSL_CTX_set_keylog_callback` (the `hasCb` argument is
in scope, as the global is in the C file, but never read). -/
def SSL_accept (hasCb fdValid : Bool) (o : HandshakeOracle) : Int × List String :=
  let before_key := mkSnapshot o.keyBefore
  let ret := o.ret
  if ret = 1 then (ret, logging_key fdValid o before_key)
  else (ret, [])

/-- The snapshot/diff extraction path shared (textually) by the three hooks:
master-key snapshot before, delegate, on success snapshot again and
conditionally log. -/
def hookExtractPath (fdValid : Bool) (o : HandshakeOracle) : Int × List String :=
  let before_key := mkSnapshot o.keyBefore
  let ret := o.ret
  if ret = 1 then (ret, logging_key fdValid o before_key)
  else (ret, [])

/-- Symbol environment seen by `load_function`: `next` is
`dlsym(RTLD_NEXT, ·)`, and `libssl`, when `dlopen("libssl.so", RTLD_LAZY)`
succeeds, is the exported-symbol table of that library.  Entry points are
opaque non-null addresses, modelled as `Nat`; `none` is `NULL`. -/
structure SymEnv where
  next : String → Option Nat
  libssl : Option (String → Option Nat)

/-- `load_function` (sslkeylog.c:233-250): try `dlsym(RTLD_NEXT, sym)`, and on
failure fall back to `dlopen("libssl.so")` + `dlsym`; may return `NULL` and
contains no abort. -/
def load_function (e : SymEnv) (sym : String) : Option Nat :=
  match e.next sym with
  | some f => some f
  | none =>
    match e.libssl with
    | some lookup => lookup sym
    | none => none

/-- `load_function_or_die` (sslkeylog.c:259-268): `load_function`, with
`abort()` — modelled as `Except.error ()` — when the symbol is not found. -/
def load_function_or_die (e : SymEnv) (sym : String) : Except Unit Nat :=
  match load_function e sym with
  | some f => Except.ok f
  | none => Except.error ()

/-- Process-wide configuration fixed at initialisation: the value of the
`SSLKEYLOGFILE` environment variable, whether the `open(2)` of that path
succeeds, and whether `SSL_CTX_set_keylog_callback` resolves. -/
structure Config where
  env : Option String
  openOk : Bool
  hasCb : Bool

/-- Observable process state: the `call_once` flag, validity of
`KeyLogFile_fd`, whether the log file was created, its content, how many
times `KeyLogFile_finalize` was registered with `atexit`, and how many
`close(2)` calls were issued on the descriptor. -/
structure Sys where
  once : Bool
  fdValid : Bool
  fileCreated : Bool
  fileData : String
  atexitCount : Nat
  closedCount : Nat
deriving DecidableEq, Repr

/-- State at program start: nothing initialised, no file, `KeyLogFile_fd = -1`. -/
def Sys.start : Sys :=
  { once := false, fdValid := false, fileCreated := false,
    fileData := "", atexitCount := 0, closedCount := 0 }

/-- `KeyLogFile_init` (sslkeylog.c:281-296): a no-op when the descriptor is
already valid; otherwise, only when `SSLKEYLOGFILE` is set, open/create the
file (the descriptor becomes valid iff the open succeeds) and register
`KeyLogFile_finalize` with `atexit`. -/
def KeyLogFile_init (c : Config) (s : Sys) : Sys :=
  if s.fdValid then s
  else
    match c.env with
    | none => s
    | some _ =>
      { s with fdValid := c.openOk,
               fileCreated := s.fileCreated || c.openOk,
               atexitCount := s.atexitCount + 1 }

/-- `KeyLogFile_finalize` (sslkeylog.c:301-308): close the descriptor when it
is valid.  The code does not reset `KeyLogFile_fd`, so the validity flag is
left unchanged and a second invocation closes again. -/
def KeyLogFile_finalize (s : Sys) : Sys :=
  if s.fdValid then { s with closedCount := s.closedCount + 1 } else s

/-- Kernel effect of one `write(KeyLogFile_fd, data, len)`: append when the
descriptor is valid, fail with no effect (EBADF) otherwise. -/
def osWrite (s : Sys) (data : String) : Sys :=
  { s with fileData := s.fileData ++ if s.fdValid then data else "" }

/-- Apply a sequence of attempted writes to the process state. -/
def osWrites (s : Sys) (ws : List String) : Sys :=
  ws.foldl osWrite s

/-- One intercepted application-visible event. -/
inductive Event where
  | sslNew
  | sslConnect (o : HandshakeOracle)
  | sslDoHandshake (o : HandshakeOracle)
  | sslAccept (o : HandshakeOracle)
  | keylogCallback (line : String)
deriving Repr

/-- One step of the process: `SSL_new` runs the one-time initialisation
(sslkeylog.c:97-109, 184-201); each handshake hook applies its attempted
writes; `keylogCallback` is the library invoking `KeyLogFile_callback`
(callback mode). -/
def stepEvent (c : Config) (s : Sys) (e : Event) : Sys :=
  match e with
  | .sslNew => if s.once then s else { KeyLogFile_init c s with once := true }
  | .sslConnect o => osWrites s (SSL_connect c.hasCb s.fdValid o).2
  | .sslDoHandshake o => osWrites s (SSL_do_handshake c.hasCb s.fdValid o).2
  | .sslAccept o => osWrites s (SSL_accept c.hasCb s.fdValid o).2
  | .keylogCallback line => osWrites s (KeyLogFile_callback s.fdValid line)

/-- Run a sequence of events from program start. -/
def runEvents (c : Config) (es : List Event) : Sys :=
  es.foldl (stepEvent c) Sys.start

/-- Normal process termination: each `atexit`-registered copy of
`KeyLogFile_finalize` runs once. -/
def runAtexit (s : Sys) : Sys :=
  KeyLogFile_finalize^[s.atexitCount] s

/-- A whole process run: the event trace, then the `atexit` handlers. -/
def processRun (c : Config) (es : List Event) : Sys :=
  runAtexit (runEvents c es)

/-- Lowercase hexadecimal alphabet, as required of the key-log fields. -/
def lowercaseHexDigits : List Char :=
  String.toList "0123456789abcdef"

/-- Invariant of a process that never opened a log file: descriptor invalid,
no file created, no bytes written. -/
def Untouched (s : Sys) : Prop :=
  s.fdValid = false ∧ s.fileCreated = false ∧ s.fileData = ""

/-- Invariant maintained by every event trace: no close has happened yet,
`KeyLogFile_finalize` is registered at most once (exactly once when the
descriptor is valid), the file exists iff the descriptor is valid, and
before the one-time initialisation nothing is registered or open. -/
def GoodSys (s : Sys) : Prop :=
  s.closedCount = 0 ∧ s.atexitCount ≤ 1 ∧
  (s.fdValid = true → s.atexitCount = 1) ∧
  s.fileCreated = s.fdValid ∧
  (s.once = false → s.atexitCount = 0 ∧ s.fdValid = false)

/-! Helper lemmas. -/

/-- C `memcmp` over `n` bytes returns 0 exactly when the two `n`-byte
prefixes agree, provided both buffers hold at least `n` bytes. -/
theorem memcmp_eq_zero_iff (n : Nat) (a b : List Nat)
    (ha : n ≤ a.length) (hb : n ≤ b.length) :
    memcmp a b n = 0 ↔ a.take n = b.take n := by
  induction n generalizing a b with
  | zero => simp [memcmp]
  | succ n ih =>
    cases a with
    | nil => simp at ha
    | cons x a' =>
      cases b with
      | nil => simp at hb
      | cons y b' =>
        rw [memcmp]
        simp only [List.headD_cons, List.tail_cons, List.take_succ_cons]
        by_cases hxy : x = y
        · subst hxy
          simp only [if_pos rfl, List.cons.injEq, true_and]
          exact ih a' b' (Nat.succ_le_succ_iff.mp ha) (Nat.succ_le_succ_iff.mp hb)
        · rw [if_neg hxy]
          constructor
          · intro h
            by_cases hlt : x < y
            · rw [if_pos hlt] at h
              exact absurd h (by decide)
            · rw [if_neg hlt] at h
              exact absurd h (by decide)
          · intro h
            injection h with h1 h2
            exact absurd h1 hxy

/-- When the client-random read returns the full 32 bytes, `logging_key`
emits one line exactly when `changed` holds, and none otherwise. -/
theorem logging_key_count (fd : Bool) (o : HandshakeOracle) (before_key : SslMasterKey)
    (hcr : o.clientRandom.length = 32) :
    (logging_key fd o before_key).length =
      if changed before_key (mkSnapshot o.keyAfter) then 1 else 0 := by
  by_cases hch : changed before_key (mkSnapshot o.keyAfter) = true
  · have hlen : 0 < (mkSnapshot o.keyAfter).length := by
      have h1 := hch
      unfold changed at h1
      rw [Bool.and_eq_true, decide_eq_true_eq, decide_eq_true_eq] at h1
      exact h1.1
    simp only [logging_key, hch, if_true, KeyLogFile_raw_dump]
    rw [if_pos]
    · simp
    · constructor
      · simp [crSnapshot, hcr, SSL3_RANDOM_SIZE]
      · omega
  · simp [logging_key, hch]

/-- Each byte contributes exactly two characters to the hex field. -/
theorem hexStrChars_length (bs : List Nat) :
    (hexStrChars bs).length = 2 * bs.length := by
  induction bs with
  | nil => simp [hexStrChars]
  | cons b bs ih =>
    simp only [hexStrChars, hexByteChars, List.length_append, List.length_cons, ih]
    simp
    omega

/-- Nibble values render inside the lowercase hex alphabet. -/
theorem hexDigitChar_mem (n : Nat) (h : n < 16) :
    hexDigitChar n ∈ lowercaseHexDigits := by
  interval_cases n <;> decide

/-- Unsigned chars render as two lowercase hex characters. -/
theorem hexByteChars_mem (b : Nat) (h : b < 256) :
    ∀ ch ∈ hexByteChars b, ch ∈ lowercaseHexDigits := by
  intro ch hch
  simp only [hexByteChars, List.mem_cons, List.not_mem_nil, or_false] at hch
  rcases hch with h1 | h1 <;> subst h1
  · exact hexDigitChar_mem _ (Nat.div_lt_of_lt_mul (by omega))
  · exact hexDigitChar_mem _ (Nat.mod_lt _ (by omega))

/-- A whole byte list renders inside the lowercase hex alphabet. -/
theorem hexStrChars_mem (bs : List Nat) (h : ∀ b ∈ bs, b < 256) :
    ∀ ch ∈ hexStrChars bs, ch ∈ lowercaseHexDigits := by
  induction bs with
  | nil => simp [hexStrChars]
  | cons b bs ih =>
    intro ch hch
    simp only [hexStrChars, List.mem_append] at hch
    rcases hch with h1 | h1
    · exact hexByteChars_mem b (h b (by simp)) ch h1
    · exact ih (fun x hx => h x (by simp [hx])) ch h1

/-- A kernel-level write leaves an untouched log untouched: the descriptor
is invalid, so the write fails with no effect. -/
theorem osWrite_untouched (s : Sys) (w : String) (h : Untouched s) :
    Untouched (osWrite s w) := by
  obtain ⟨h1, h2, h3⟩ := h
  refine ⟨h1, h2, ?_⟩
  simp [osWrite, h1, h3]

/-- A sequence of attempted writes leaves an untouched log untouched. -/
theorem osWrites_untouched (ws : List String) (s : Sys) (h : Untouched s) :
    Untouched (osWrites s ws) := by
  induction ws generalizing s with
  | nil => exact h
  | cons w ws ih => exact ih _ (osWrite_untouched s w h)

/-- With `SSLKEYLOGFILE` unset, every process event preserves `Untouched`. -/
theorem step_untouched (openOk hasCb : Bool) (s : Sys) (e : Event)
    (h : Untouched s) :
    Untouched (stepEvent { env := none, openOk := openOk, hasCb := hasCb } s e) := by
  obtain ⟨h1, h2, h3⟩ := h
  cases e with
  | sslNew =>
    by_cases ho : s.once
    · simpa [stepEvent, ho] using ⟨h1, h2, h3⟩
    · simp [stepEvent, ho, KeyLogFile_init, h1]
      exact ⟨rfl, h2, h3⟩
  | sslConnect o => exact osWrites_untouched _ s ⟨h1, h2, h3⟩
  | sslDoHandshake o => exact osWrites_untouched _ s ⟨h1, h2, h3⟩
  | sslAccept o => exact osWrites_untouched _ s ⟨h1, h2, h3⟩
  | keylogCallback line => exact osWrites_untouched _ s ⟨h1, h2, h3⟩

/-- Iterating `KeyLogFile_finalize` on an invalid descriptor is the
identity: the `KeyLogFile_fd >= 0` guard fails every time. -/
theorem finalize_iterate_invalid (n : Nat) (s : Sys) (h : s.fdValid = false) :
    KeyLogFile_finalize^[n] s = s := by
  induction n with
  | zero => rfl
  | succ n ih =>
    rw [Function.iterate_succ_apply]
    have hs : KeyLogFile_finalize s = s := by simp [KeyLogFile_finalize, h]
    rw [hs, ih]

/-- Attempted writes only append to `fileData`; the `GoodSys` invariant
concerns the other fields and is untouched. -/
theorem osWrites_good (ws : List String) (s : Sys) (h : GoodSys s) :
    GoodSys (osWrites s ws) := by
  induction ws generalizing s with
  | nil => exact h
  | cons w ws ih => exact ih (osWrite s w) h

/-- Every process event preserves the `GoodSys` invariant. -/
theorem step_good (c : Config) (s : Sys) (e : Event) (h : GoodSys s) :
    GoodSys (stepEvent c s e) := by
  cases e with
  | sslNew =>
    by_cases ho : s.once
    · simpa [stepEvent, ho] using h
    · obtain ⟨h1, h2, h3, h4, h5⟩ := h
      obtain ⟨h6, h7⟩ := h5 (by simpa using ho)
      cases henv : c.env with
      | none =>
        have hst : stepEvent c s Event.sslNew = { s with once := true } := by
          simp [stepEvent, ho, KeyLogFile_init, h7, henv]
        rw [hst]
        exact ⟨h1, h2, h3, h4, by simp⟩
      | some p =>
        have hst : stepEvent c s Event.sslNew = { s with once := true, fdValid := c.openOk, fileCreated := s.fileCreated || c.openOk, atexitCount := s.atexitCount + 1 } := by
          simp [stepEvent, ho, KeyLogFile_init, h7, henv]
        rw [hst]
        refine ⟨h1, ?_, ?_, ?_, ?_⟩
        · show s.atexitCount + 1 ≤ 1
          omega
        · intro _
          show s.atexitCount + 1 = 1
          omega
        · show (s.fileCreated || c.openOk) = c.openOk
          rw [h4, h7]
          simp
        · show true = false → _
          simp
  | sslConnect o => exact osWrites_good _ s h
  | sslDoHandshake o => exact osWrites_good _ s h
  | sslAccept o => exact osWrites_good _ s h
  | keylogCallback line => exact osWrites_good _ s h

/-- The `GoodSys` invariant holds after any event trace from program start. -/
theorem runEvents_good (c : Config) (es : List Event) :
    GoodSys (runEvents c es) := by
  have hfold : ∀ s, GoodSys s → GoodSys (es.foldl (stepEvent c) s) := by
    induction es with
    | nil => intro s h; exact h
    | cons e es ih =>
      intro s h
      exact ih _ (step_good c s e h)
  exact hfold Sys.start ⟨rfl, by simp [Sys.start], by simp [Sys.start], rfl,
    fun _ => ⟨rfl, rfl⟩⟩

/-! Claim theorems. -/

/-- C1: for every successful hook-mode handshake (the wrapped call returns 1
with the callback entry point unresolved, and the client-random read returns
its full 32 bytes as the library guarantees on an established connection),
each interceptor produces exactly one key-log line when the master-key
snapshot taken after the call differs — in the sense of the code's `changed`
comparison — from the snapshot taken before it, and zero lines when it is
unchanged (session resumption). -/
theorem C1_hook_mode_logs_exactly_on_change (fd : Bool) (o : HandshakeOracle)
    (hret : o.ret = 1) (hcr : o.clientRandom.length = 32) :
    ((SSL_connect false fd o).2.length =
      if changed (mkSnapshot o.keyBefore) (mkSnapshot o.keyAfter) then 1 else 0) ∧
    ((SSL_do_handshake false fd o).2.length =
      if changed (mkSnapshot o.keyBefore) (mkSnapshot o.keyAfter) then 1 else 0) ∧
    ((SSL_accept false fd o).2.length =
      if changed (mkSnapshot o.keyBefore) (mkSnapshot o.keyAfter) then 1 else 0) := by
  refine ⟨?_, ?_, ?_⟩ <;>
    simp only [SSL_connect, SSL_do_handshake, SSL_accept,
      if_neg (by decide : ¬ false = true), hret, if_pos rfl] <;>
    exact logging_key_count fd o (mkSnapshot o.keyBefore) hcr

/-- C1 witness: a fresh one-byte master key on a successful `SSL_connect`
with the callback unresolved yields exactly one line. -/
theorem C1_hook_mode_logs_exactly_on_change_witness :
    (({ keyBefore := [], ret := 1, keyAfter := [5],
        clientRandom := List.range 32 } : HandshakeOracle).ret = 1 ∧
      (List.range 32).length = 32) ∧
    ((SSL_connect false true
        { keyBefore := [], ret := 1, keyAfter := [5],
          clientRandom := List.range 32 }).2.length =
      if changed (mkSnapshot []) (mkSnapshot [5]) then 1 else 0) :=
  ⟨⟨rfl, by decide⟩,
    (C1_hook_mode_logs_exactly_on_change true
      { keyBefore := [], ret := 1, keyAfter := [5], clientRandom := List.range 32 }
      rfl (by decide)).1⟩

/-- C2: for every pair of well-formed snapshots, the deduplication predicate
`changed` (the condition of sslkeylog.c:212) holds iff `after.length > 0` and
the first `after.length` bytes of the after buffer differ from the first
`after.length` bytes of the before buffer (`changedSpec`, the spec's words). -/
theorem C2_changed_iff_content_differs (before_key after_key : SslMasterKey)
    (hb : before_key.WF) (ha : after_key.WF) :
    changed before_key after_key = true ↔ changedSpec before_key after_key := by
  obtain ⟨hbl, -, -⟩ := hb
  obtain ⟨hal, hallen, -⟩ := ha
  unfold changed changedSpec
  rw [Bool.and_eq_true, decide_eq_true_eq, decide_eq_true_eq]
  have hmem := memcmp_eq_zero_iff after_key.length after_key.value before_key.value
    (by rw [hal]; exact hallen) (by rw [hbl]; exact hallen)
  constructor
  · rintro ⟨h1, h2⟩
    exact ⟨h1, fun hc => h2 (hmem.mpr hc)⟩
  · rintro ⟨h1, h2⟩
    exact ⟨h1, fun hc => h2 (hmem.mp hc)⟩

/-- C2 witness: the all-zero snapshot against a snapshot holding one byte 1. -/
theorem C2_changed_iff_content_differs_witness :
    ((mkSnapshot []).WF ∧ (mkSnapshot [1]).WF) ∧
    (changed (mkSnapshot []) (mkSnapshot [1]) = true ↔
      changedSpec (mkSnapshot []) (mkSnapshot [1])) :=
  ⟨⟨by decide, by decide⟩,
    C2_changed_iff_content_differs (mkSnapshot []) (mkSnapshot [1])
      (by decide) (by decide)⟩

/-- C3: `SSL_connect` and `SSL_do_handshake` return the real call's value
unmodified in every mode, and in hook mode their write behaviour is exactly:
snapshot of the pre-call key, delegation, and — only when the real call
returned 1 — the conditional `logging_key` dump; every other return value
skips logging entirely. -/
theorem C3_initiator_generic_interceptor_shape (cb fd : Bool) (o : HandshakeOracle) :
    (SSL_connect cb fd o).1 = o.ret ∧
    (SSL_do_handshake cb fd o).1 = o.ret ∧
    (SSL_connect false fd o).2 =
      (if o.ret = 1 then logging_key fd o (mkSnapshot o.keyBefore) else []) ∧
    (SSL_do_handshake false fd o).2 =
      (if o.ret = 1 then logging_key fd o (mkSnapshot o.keyBefore) else []) := by
  refine ⟨?_, ?_, ?_, ?_⟩ <;>
    simp only [SSL_connect, SSL_do_handshake] <;>
    split <;> (try split) <;> simp_all

/-- C4: `SSL_accept` follows the snapshot/diff extraction path whatever the
callback capability is, while `SSL_connect` and `SSL_do_handshake` with the
callback present delegate directly and attempt no write. -/
theorem C4_responder_always_hook_path (cb cb' fd : Bool) (o : HandshakeOracle) :
    SSL_accept cb fd o = hookExtractPath fd o ∧
    SSL_accept cb fd o = SSL_accept cb' fd o ∧
    SSL_connect true fd o = (o.ret, []) ∧
    SSL_do_handshake true fd o = (o.ret, []) :=
  ⟨rfl, rfl, rfl, rfl⟩

/-- C5: every line the hook path emits is exactly the literal
"CLIENT_RANDOM ", the client random in lowercase hex (two characters per
byte, no separators), a space, the master key encoded the same way, and a
newline; the hex fields are twice the byte lengths, drawn from the lowercase
hex alphabet, and the line (with its terminator) fits the
`CLIENT_RANDOM_LINE_LENGTH` buffer. -/
theorem C5_keylog_line_format (fd : Bool) (cr : SslClientRandom) (mk : SslMasterKey)
    (hcr : cr.WF) (hmk : mk.WF) (h1 : cr.length ≠ 0) (h2 : mk.length ≠ 0) :
    KeyLogFile_raw_dump fd cr mk =
      ["CLIENT_RANDOM " ++ String.mk (hexStrChars (cr.value.take cr.length)) ++ " " ++
        String.mk (hexStrChars (mk.value.take mk.length)) ++ "\n"] ∧
    (hexStrChars (cr.value.take cr.length)).length = 2 * cr.length ∧
    (hexStrChars (mk.value.take mk.length)).length = 2 * mk.length ∧
    (∀ ch ∈ hexStrChars (cr.value.take cr.length), ch ∈ lowercaseHexDigits) ∧
    (∀ ch ∈ hexStrChars (mk.value.take mk.length), ch ∈ lowercaseHexDigits) ∧
    (dumpLine cr mk).length + 1 ≤ CLIENT_RANDOM_LINE_LENGTH := by
  obtain ⟨hcv, hcl, hcb⟩ := hcr
  obtain ⟨hmv, hml, hmb⟩ := hmk
  have hclen : (cr.value.take cr.length).length = cr.length := by
    rw [List.length_take, hcv]
    omega
  have hmlen : (mk.value.take mk.length).length = mk.length := by
    rw [List.length_take, hmv]
    omega
  refine ⟨?_, ?_, ?_, ?_, ?_, ?_⟩
  · simp [KeyLogFile_raw_dump, h1, h2, dumpLine]
  · rw [hexStrChars_length, hclen]
  · rw [hexStrChars_length, hmlen]
  · exact hexStrChars_mem _ (fun b hb => hcb b (List.take_subset _ _ hb))
  · exact hexStrChars_mem _ (fun b hb => hmb b (List.take_subset _ _ hb))
  · simp only [dumpLine, String.length_append, String.length_mk,
      hexStrChars_length, hclen, hmlen]
    have e1 : ("CLIENT_RANDOM " : String).length = 14 := by decide
    have e2 : (" " : String).length = 1 := by decide
    have e3 : ("\n" : String).length = 1 := by decide
    rw [e1, e2, e3]
    simp only [CLIENT_RANDOM_LINE_LENGTH, CLIENT_RANDOM_LEN, SSL3_RANDOM_SIZE,
      SSL_MAX_MASTER_KEY_LENGTH]
    unfold SSL3_RANDOM_SIZE at hcl
    unfold SSL_MAX_MASTER_KEY_LENGTH at hml
    omega

set_option maxRecDepth 4000 in
/-- C5 witness: client random bytes 00..1f and master key bytes a0..cf yield
exactly the spec's example line. -/
theorem C5_keylog_line_format_witness :
    (({ value := List.range 32, length := 32 } : SslClientRandom).WF ∧
      ({ value := (List.range 48).map (fun b => b + 160), length := 48 } : SslMasterKey).WF) ∧
    KeyLogFile_raw_dump true { value := List.range 32, length := 32 }
        { value := (List.range 48).map (fun b => b + 160), length := 48 } =
      ["CLIENT_RANDOM 000102030405060708090a0b0c0d0e0f101112131415161718191a1b1c1d1e1f a0a1a2a3a4a5a6a7a8a9aaabacadaeafb0b1b2b3b4b5b6b7b8b9babbbcbdbebfc0c1c2c3c4c5c6c7c8c9cacbcccdcecf\n"] :=
  ⟨⟨by decide, by decide⟩,
    ((C5_keylog_line_format true { value := List.range 32, length := 32 }
        { value := (List.range 48).map (fun b => b + 160), length := 48 }
        (by decide) (by decide) (by decide) (by decide)).1).trans (by decide)⟩

/-- C6: with `SSLKEYLOGFILE` unset at initialisation, no log file is ever
created and no byte is ever written, for every event trace (any number of
handshakes, either capture mode) and through process termination; the
descriptor stays invalid, so every write operation is a no-op. -/
theorem C6_no_env_no_output (openOk hasCb : Bool) (es : List Event) :
    (processRun { env := none, openOk := openOk, hasCb := hasCb } es).fdValid = false ∧
    (processRun { env := none, openOk := openOk, hasCb := hasCb } es).fileCreated = false ∧
    (processRun { env := none, openOk := openOk, hasCb := hasCb } es).fileData = "" := by
  have hrun : Untouched (runEvents { env := none, openOk := openOk, hasCb := hasCb } es) := by
    have hfold : ∀ s, Untouched s →
        Untouched (es.foldl (stepEvent { env := none, openOk := openOk, hasCb := hasCb }) s) := by
      induction es with
      | nil => intro s h; exact h
      | cons e es ih =>
        intro s h
        exact ih _ (step_untouched openOk hasCb s e h)
    exact hfold Sys.start ⟨rfl, rfl, rfl⟩
  have hfin : Untouched (processRun { env := none, openOk := openOk, hasCb := hasCb } es) := by
    unfold processRun runAtexit
    rw [finalize_iterate_invalid _ _ hrun.1]
    exact hrun
  exact hfin

/-- C7 (amended): the hook path (`KeyLogFile_raw_dump`) emits at most one
write call, and when it writes, the single call carries the whole formatted
line; the callback path (`KeyLogFile_callback`), by contrast, issues two
write calls per line — the line and then the newline — and none when the
descriptor is invalid. -/
theorem C7_amended_write_calls (fd : Bool) (cr : SslClientRandom)
    (mk : SslMasterKey) (line : String) :
    (KeyLogFile_raw_dump fd cr mk).length ≤ 1 ∧
    (KeyLogFile_raw_dump fd cr mk = [] ∨
      KeyLogFile_raw_dump fd cr mk = [dumpLine cr mk]) ∧
    KeyLogFile_callback true line = [line, "\n"] ∧
    KeyLogFile_callback false line = [] := by
  unfold KeyLogFile_raw_dump KeyLogFile_callback
  split <;> simp

/-- C7 counterexample: on the callback path a single key-log line is emitted
with two low-level write calls, not one. -/
theorem C7_callback_two_writes_counterexample :
    KeyLogFile_callback true "CLIENT_RANDOM 0011 2233" =
      ["CLIENT_RANDOM 0011 2233", "\n"] ∧
    (KeyLogFile_callback true "CLIENT_RANDOM 0011 2233").length ≠ 1 := by
  constructor
  · rfl
  · decide

/-- C8: `load_function_or_die` either returns an entry point found by
`load_function` or aborts the process (`Except.error`), and never returns a
null entry point; `load_function` itself contains no abort, reports "not
found" exactly when the symbol is absent from both the forward search and
the fallback library, and returns the forward search's hit when present. -/
theorem C8_resolver_contract (e : SymEnv) (sym : String) :
    ((∃ v, load_function_or_die e sym = Except.ok v) ∨
      load_function_or_die e sym = Except.error ()) ∧
    (∀ v, load_function_or_die e sym = Except.ok v ↔ load_function e sym = some v) ∧
    (load_function_or_die e sym = Except.error () ↔ load_function e sym = none) ∧
    (e.next sym = none → e.libssl = none → load_function e sym = none) ∧
    (∀ v, e.next sym = some v → load_function e sym = some v) := by
  refine ⟨?_, ?_, ?_, ?_, ?_⟩
  · cases h : load_function e sym with
    | none =>
      right
      simp [load_function_or_die, h]
    | some v =>
      left
      exact ⟨v, by simp [load_function_or_die, h]⟩
  · intro v
    cases h : load_function e sym with
    | none => simp [load_function_or_die, h]
    | some w => simp [load_function_or_die, h]
  · cases h : load_function e sym with
    | none => simp [load_function_or_die, h]
    | some w => simp [load_function_or_die, h]
  · intro h1 h2
    simp [load_function, h1, h2]
  · intro v h
    simp [load_function, h]

/-- C8 witness: the optional symbol absent from every search source resolves
to "not found" without aborting. -/
theorem C8_resolver_contract_witness :
    load_function { next := fun _ => none, libssl := none }
      "SSL_CTX_set_keylog_callback" = none :=
  (C8_resolver_contract { next := fun _ => none, libssl := none }
    "SSL_CTX_set_keylog_callback").2.2.2.1 rfl rfl

/-- C9 (amended): over any whole process run, `KeyLogFile_finalize` is
registered via `atexit` at most once by the one-time initialisation, and at
normal process termination the descriptor is closed exactly once when the
log file was opened and never otherwise; `KeyLogFile_finalize` itself is not
idempotent, since it does not invalidate the descriptor it closes. -/
theorem C9_amended_close_once_at_exit (c : Config) (es : List Event) :
    ((processRun c es).closedCount =
      if (runEvents c es).fileCreated then 1 else 0) ∧
    (processRun c es).closedCount ≤ 1 := by
  obtain ⟨h1, h2, h3, h4, h5⟩ := runEvents_good c es
  by_cases hfd : (runEvents c es).fdValid
  · have ha : (runEvents c es).atexitCount = 1 := h3 hfd
    have hone : processRun c es = KeyLogFile_finalize (runEvents c es) := by
      unfold processRun runAtexit
      rw [ha, Function.iterate_one]
    rw [hone]
    simp [KeyLogFile_finalize, hfd, h1, h4]
  · have hz : (runEvents c es).fdValid = false := by simpa using hfd
    have hid : processRun c es = runEvents c es := by
      unfold processRun runAtexit
      exact finalize_iterate_invalid _ _ hz
    rw [hid, h1, h4, hz]
    simp

/-- C9 counterexample: running `KeyLogFile_finalize` twice on a state with a
valid descriptor closes the descriptor twice, so a double run is observably
different from a single run — finalize is not idempotent. -/
theorem C9_finalize_not_idempotent_counterexample :
    KeyLogFile_finalize (KeyLogFile_finalize { Sys.start with fdValid := true }) ≠
      KeyLogFile_finalize { Sys.start with fdValid := true } := by
  decide

/-- C10: the hook dump emits a line only when both captured lengths are
non-zero; its attempted write does not depend on the descriptor's validity
(it is issued unchecked); and when the client-random read yields length 0,
a successful hook-mode handshake whose master key changed still produces no
line. -/
theorem C10_raw_dump_guards (fd fd' : Bool) (cr : SslClientRandom)
    (mk : SslMasterKey) (o : HandshakeOracle)
    (hret : o.ret = 1)
    (hch : changed (mkSnapshot o.keyBefore) (mkSnapshot o.keyAfter) = true)
    (hcrz : o.clientRandom = []) :
    (KeyLogFile_raw_dump fd cr mk ≠ [] → cr.length ≠ 0 ∧ mk.length ≠ 0) ∧
    KeyLogFile_raw_dump fd cr mk = KeyLogFile_raw_dump fd' cr mk ∧
    (cr.length ≠ 0 → mk.length ≠ 0 → KeyLogFile_raw_dump false cr mk ≠ []) ∧
    (SSL_connect false fd o).2 = [] ∧
    (SSL_do_handshake false fd o).2 = [] ∧
    (SSL_accept false fd o).2 = [] := by
  refine ⟨?_, rfl, ?_, ?_, ?_, ?_⟩
  · intro h
    by_cases hc : cr.length ≠ 0 ∧ mk.length ≠ 0
    · exact hc
    · exact absurd (by simp [KeyLogFile_raw_dump, hc]) h
  · intro g1 g2
    simp [KeyLogFile_raw_dump, g1, g2]
  all_goals
    simp [SSL_connect, SSL_do_handshake, SSL_accept, hret, logging_key, hch,
      KeyLogFile_raw_dump, crSnapshot, hcrz]

/-- C10 witness: a changed master key on a successful hook-mode `SSL_connect`
with a zero-length client random produces no line. -/
theorem C10_raw_dump_guards_witness :
    (SSL_connect false true
      { keyBefore := [], ret := 1, keyAfter := [1, 2], clientRandom := [] }).2 = [] ∧
    changed (mkSnapshot []) (mkSnapshot [1, 2]) = true :=
  ⟨(C10_raw_dump_guards true false (crSnapshot []) (mkSnapshot [])
      { keyBefore := [], ret := 1, keyAfter := [1, 2], clientRandom := [] }
      rfl (by decide) rfl).2.2.2.1,
    by decide⟩
